import Mathlib

/-!
Verification of the window-practice utility script.

Shallow embedding of `src/lessons/day-44-window-splits/practice/code_main.py`:
  - the filesystem is a finite map from path strings to content strings,
    represented as an association list (first match wins; writes replace);
  - Python exceptions are `Except PyError`;
  - logging is modelled by explicit lists of `LogEntry` values returned
    alongside results;
  - `datetime.now()` is modelled by an ambient `now : String` parameter;
  - Python `str.upper` / `str.lower` are modelled character-wise on the
    basic-latin range (`Char.toUpper` / `Char.toLower`), which matches
    CPython on ASCII text;
  - `json.dump(results, f, indent=2)` is modelled at entry granularity:
    one serialized entry per record, in list order.
-/

/-- Severity levels of the `logging` module as used by the script. -/
inductive LogLevel where
  | debug
  | info
  | error
  deriving DecidableEq

/-- One record emitted through `self.logger`. -/
structure LogEntry where
  level : LogLevel
  msg : String
  deriving DecidableEq

/-- The Python exceptions that the script can raise. -/
inductive PyError where
  | fileNotFound (path : String)
  | attributeError (attr : String)
  | valueError (msg : String)
  deriving DecidableEq

/-- A filesystem state: an association list from paths to file contents.
`readFile` takes the first match, `writeFile` replaces any previous entry,
so the list denotes a finite map. -/
structure FS where
  files : List (String × String)
  deriving DecidableEq

/-- First-match lookup in the path/content association list. -/
def lookupFile : List (String × String) → String → Option String
  | [], _ => none
  | (p, c) :: rest, q => if p = q then some c else lookupFile rest q

/-- Model of `open(path, 'r')` followed by `f.read()`: `none` models the
`FileNotFoundError` (or any read failure) path. -/
def readFile (fs : FS) (path : String) : Option String :=
  lookupFile fs.files path

/-- Model of `open(path, 'w')` followed by `f.write(content)`: creates or
overwrites the file. -/
def writeFile (fs : FS) (path content : String) : FS :=
  ⟨(path, content) :: fs.files.filter (fun pc => !(pc.1 == path))⟩

/-- Model of Python `str.upper()` (character-wise, basic-latin range). -/
def pyUpper (s : String) : String :=
  ⟨s.data.map Char.toUpper⟩

/-- Model of Python `str.lower()` (character-wise, basic-latin range). -/
def pyLower (s : String) : String :=
  ⟨s.data.map Char.toLower⟩

/-- Model of Python `str.startswith`. -/
def pyStartsWith (s pat : String) : Bool :=
  pat.data.isPrefixOf s.data

/-- Model of Python `str.endswith`. -/
def pyEndsWith (s pat : String) : Bool :=
  pat.data.isSuffixOf s.data

/-- Worker for `pySplitlines`: splits at `\n`, `\r\n` and `\r`, carrying the
reversed current line in `acc`; a nonempty final segment is emitted, an empty
one is not (matching `"a\n".splitlines() == ["a"]`). -/
def splitlinesAux : List Char → List Char → List (List Char)
  | [], acc => if acc.isEmpty then [] else [acc.reverse]
  | '\r' :: '\n' :: rest, acc => acc.reverse :: splitlinesAux rest []
  | '\n' :: rest, acc => acc.reverse :: splitlinesAux rest []
  | '\r' :: rest, acc => acc.reverse :: splitlinesAux rest []
  | c :: rest, acc => splitlinesAux rest (c :: acc)

/-- Model of Python `str.splitlines()` (on the common line boundaries). -/
def pySplitlines (s : String) : List String :=
  (splitlinesAux s.data []).map String.mk

/-- The whitespace characters recognised by Python `str.split()` with no
arguments (ASCII range). -/
def isPyWs (c : Char) : Bool :=
  c = ' ' || c = '\t' || c = '\n' || c = '\r' || c = '\x0b' || c = '\x0c'

/-- Worker for `pySplitWs`: splits at runs of whitespace, discarding empty
segments, carrying the reversed current token in `acc`. -/
def splitWsAux : List Char → List Char → List (List Char)
  | [], acc => if acc.isEmpty then [] else [acc.reverse]
  | c :: rest, acc =>
    if isPyWs c then
      if acc.isEmpty then splitWsAux rest []
      else acc.reverse :: splitWsAux rest []
    else splitWsAux rest (c :: acc)

/-- Model of Python `str.split()` with no arguments. -/
def pySplitWs (s : String) : List String :=
  (splitWsAux s.data []).map String.mk

/-- Model of `input_file.replace('.txt', '_processed.txt')`: every
non-overlapping occurrence of `.txt`, scanning left to right, is replaced. -/
def replaceTxtAux : List Char → List Char
  | '.' :: 't' :: 'x' :: 't' :: rest =>
    '_' :: 'p' :: 'r' :: 'o' :: 'c' :: 'e' :: 's' :: 's' :: 'e' :: 'd' ::
      '.' :: 't' :: 'x' :: 't' :: replaceTxtAux rest
  | c :: rest => c :: replaceTxtAux rest
  | [] => []

/-- String wrapper for `replaceTxtAux`. -/
def pyReplaceTxt (s : String) : String :=
  ⟨replaceTxtAux s.data⟩

/-- Modelled from the spec: the Result Saver and Batch Runner live in
`data/`; the path of a file named `name` in the data directory. -/
def dataFile (name : String) : String :=
  "data/" ++ name

/-- Does a path belong to the data directory and match the glob pattern
`*.txt` (non-recursive, as `Path('data').glob('*.txt')` does)? -/
def isTxtName (p : String) : Bool :=
  pyStartsWith p "data/" && pyEndsWith p ".txt" && !((p.data.drop 5).contains '/')

/-- Model of `list(self.data_path.glob('*.txt'))`: the files of the data
directory whose name matches `*.txt`, in enumeration (filesystem) order. -/
def glob_txt (fs : FS) : List String :=
  (fs.files.filter (fun pc => isTxtName pc.1)).map Prod.fst

/-- The analysis dictionary built by `analyze_file`. -/
structure AnalysisRecord where
  file : String
  lines : Nat
  characters : Nat
  words : Nat
  timestamp : String
  deriving DecidableEq

/-- Model of `WindowPracticeApp.analyze_file`: read the file, count lines,
characters and words, and stamp with the current time. A read failure
propagates as an exception. -/
def analyze_file (fs : FS) (now : String) (filepath : String) :
    Except PyError (AnalysisRecord × List LogEntry) :=
  match readFile fs filepath with
  | none => .error (.fileNotFound filepath)
  | some content =>
    .ok ({ file := filepath,
           lines := (pySplitlines content).length,
           characters := content.length,
           words := (pySplitWs content).length,
           timestamp := now },
         [⟨.debug, "Analysis complete for " ++ filepath⟩])

/-- Rendering of `str(e)` for the error-path log message. -/
def errText : PyError → String
  | .fileNotFound p => "[Errno 2] No such file or directory: " ++ p
  | .attributeError a => "no attribute " ++ a
  | .valueError m => m

/-- The error-level entry logged when analysing `f` raised `e`. -/
def errorEntry (f : String) (e : PyError) : LogEntry :=
  ⟨.error, "Error processing " ++ f ++ ": " ++ errText e⟩

/-- Is a log entry at error level? -/
def isErrorEntry (e : LogEntry) : Bool :=
  e.level = LogLevel.error

/-- Model of the per-file loop of `run_analysis` (lines 100-107): analyse
each enumerated file against the current filesystem, collecting successful
records in order and logging (not propagating) per-file failures. -/
def run_analysis_core (fs : FS) (now : String) :
    List String → List AnalysisRecord × List LogEntry
  | [] => ([], [])
  | f :: rest =>
    let tail := run_analysis_core fs now rest
    match analyze_file fs now f with
    | .ok (r, lg) => (r :: tail.1, lg ++ tail.2)
    | .error e => (tail.1, errorEntry f e :: tail.2)

/-- The fixed path the Result Saver writes to. -/
def resultsPath : String :=
  "data/results.json"

/-- Serialization of one `AnalysisRecord`, fields in dictionary insertion
order, as one entry of the `json.dump` output. -/
def recordJson (r : AnalysisRecord) : String :=
  "\x7b\"file\": \"" ++ r.file ++ "\", \"lines\": " ++ toString r.lines ++
    ", \"characters\": " ++ toString r.characters ++ ", \"words\": " ++
    toString r.words ++ ", \"timestamp\": \"" ++ r.timestamp ++ "\"\x7d"

/-- Comma-joins serialized entries. -/
def joinEntries : List String → String
  | [] => ""
  | [e] => e
  | e :: rest => e ++ ",\n  " ++ joinEntries rest

/-- Serialization of the whole results list: one entry per record, in list
order (`json.dump(results, f, indent=2)` at entry granularity). -/
def recordsJson (rs : List AnalysisRecord) : String :=
  if rs.isEmpty then "[]"
  else "[\n  " ++ joinEntries (rs.map recordJson) ++ "\n]"

/-- Model of `WindowPracticeApp.save_results`: overwrite the fixed results
path with the serialized collection. -/
def save_results (fs : FS) (results : List AnalysisRecord) : FS × List LogEntry :=
  (writeFile fs resultsPath (recordsJson results),
   [⟨.info, "Results saved to " ++ resultsPath⟩])

/-- Outcome of one batch run. -/
structure RunResult where
  records : List AnalysisRecord
  fs : FS
  log : List LogEntry
  deriving DecidableEq

/-- Model of `WindowPracticeApp.run_analysis`: enumerate `data/*.txt`,
analyse each file (tolerating per-file failures), save and return the
collected records. -/
def run_analysis (fs : FS) (now : String) : RunResult :=
  let dataFiles := glob_txt fs
  let looped := run_analysis_core fs now dataFiles
  let saved := save_results fs looped.1
  { records := looped.1,
    fs := saved.1,
    log := ⟨.info, "Starting analysis workflow"⟩ ::
           ⟨.info, "Found " ++ toString dataFiles.length ++ " data files"⟩ ::
           (looped.2 ++ saved.2) }

/-- Model of `WindowPracticeApp.process_data`: read the input file, uppercase
its contents, write them to `input_file.replace('.txt', '_processed.txt')`
and return that output path. Read failures propagate uncaught. -/
def process_data (fs : FS) (input_file : String) :
    Except PyError (FS × String × List LogEntry) :=
  match readFile fs input_file with
  | none => .error (.fileNotFound input_file)
  | some data =>
    let processed := pyUpper data
    let output_file := pyReplaceTxt input_file
    .ok (writeFile fs output_file processed, output_file,
         [⟨.info, "Processing " ++ input_file⟩,
          ⟨.info, "Processed data written to " ++ output_file⟩])

/-- The returned output path of a `process_data` call, when it succeeded. -/
def returnedPath : Except PyError (FS × String × List LogEntry) → Option String
  | .ok (_, out, _) => some out
  | .error _ => none

/-- Modelled from the spec (§4.3 "replacing a fixed suffix pattern in the
input name"): replace the suffix `.txt` — and only the suffix — with
`_processed.txt`. Stated for comparison with the code's `pyReplaceTxt`. -/
def suffixReplaceTxtSpec (s : String) : String :=
  if pyEndsWith s ".txt" then ⟨s.data.take (s.data.length - 4)⟩ ++ "_processed.txt"
  else s

/-- The configuration value held by the app: either the parse of an existing
config file, or the empty mapping fallback. (The script never inspects the
parsed value, so the parse itself is kept abstract as the raw text.) -/
inductive Config where
  | empty
  | parsed (raw : String)
  deriving DecidableEq

/-- Model of `WindowPracticeApp.load_config`. `loggerSet` records whether
`self.logger` exists at call time: the `except FileNotFoundError` handler
dereferences `self.logger`, which raises `AttributeError` when the attribute
has not been assigned yet. -/
def load_config (loggerSet : Bool) (fs : FS) (path : String) :
    Except PyError (Config × List LogEntry) :=
  match readFile fs path with
  | some content => .ok (.parsed content, [])
  | none =>
    if loggerSet then
      .ok (.empty, [⟨.error, "Config file not found: " ++ path⟩])
    else
      .error (.attributeError "logger")

/-- The application object after `__init__` completed. -/
structure App where
  config : Config
  dataPath : String
  deriving DecidableEq

/-- Model of `WindowPracticeApp.__init__`: `self.config = self.load_config(...)`
runs BEFORE `self.logger = self.setup_logging()`, so `load_config` is invoked
with no logger attribute in place. -/
def initApp (fs : FS) (configPath : String) : Except PyError App :=
  match load_config false fs configPath with
  | .error e => .error e
  | .ok (cfg, _) => .ok { config := cfg, dataPath := "data" }

/-- Model of `WindowPracticeApp.process_command`: dispatch on the command
prefix; a `process` line is destructured by `_, filename = command.split()`,
which raises `ValueError` unless the split yields exactly two tokens. -/
def process_command (fs : FS) (now : String) (command : String) :
    Except PyError (FS × List LogEntry) :=
  let hdr : LogEntry := ⟨.info, "Processing command: " ++ command⟩
  if pyStartsWith command "analyze" then
    let r := run_analysis fs now
    .ok (r.fs, hdr :: r.log)
  else if pyStartsWith command "process" then
    match pySplitWs command with
    | [_, filename] =>
      match process_data fs filename with
      | .ok (fs2, _, lg) => .ok (fs2, hdr :: lg)
      | .error e => .error e
    | _ => .error (.valueError "cannot unpack command.split() into (_, filename)")
  else
    .ok (fs, [hdr])

/-- One event read by `input()` in the interactive loop. -/
inductive StdinEvent where
  | line (s : String)
  | interrupt
  deriving DecidableEq

/-- How the interactive loop ended: normal quit, a caught keyboard
interrupt, end of input, or an uncaught exception that propagates out of the
loop (the loop's handler catches only `KeyboardInterrupt`). -/
inductive ExitKind where
  | quit
  | interrupted
  | eof
  | crashed (e : PyError)
  deriving DecidableEq

/-- Outcome of the interactive loop: the final filesystem, the list of lines
that were handed to `process_command` (in order), and how the loop ended. -/
structure LoopResult where
  fs : FS
  dispatched : List String
  exit : ExitKind
  deriving DecidableEq

/-- Model of the `while True` loop of `WindowPracticeApp.interactive_mode`:
quit (case-insensitively) breaks before any dispatch; an interrupt is caught
and ends the loop; any other line goes to `process_command`, whose uncaught
exceptions escape the loop. -/
def interactive_mode (fs : FS) (now : String) : List StdinEvent → LoopResult
  | [] => ⟨fs, [], .eof⟩
  | .interrupt :: _ => ⟨fs, [], .interrupted⟩
  | .line s :: rest =>
    if pyLower s = "quit" then ⟨fs, [], .quit⟩
    else
      match process_command fs now s with
      | .error e => ⟨fs, [s], .crashed e⟩
      | .ok (fs2, _) =>
        let r := interactive_mode fs2 now rest
        ⟨r.fs, s :: r.dispatched, r.exit⟩

/-! ## Helper lemmas -/

theorem char_toNat_ofNat {n : Nat} (h : n.isValidChar) : (Char.ofNat n).toNat = n := by
  rw [Char.ofNat, dif_pos h]
  simp [Char.ofNatAux, Char.toNat, UInt32.toNat, BitVec.ofNatLt]

theorem toUpper_idem (c : Char) : Char.toUpper (Char.toUpper c) = Char.toUpper c := by
  simp only [Char.toUpper]
  split
  · next h =>
    have hv : Nat.isValidChar (c.toNat - 32) := by
      left
      omega
    rw [if_neg]
    rw [char_toNat_ofNat hv]
    omega
  · rfl

theorem readFile_writeFile_self (fs : FS) (p c : String) :
    readFile (writeFile fs p c) p = some c := by
  simp [readFile, writeFile, lookupFile]

theorem lookupFile_exists_of_mem {l : List (String × String)} {p c : String}
    (h : (p, c) ∈ l) : ∃ d, lookupFile l p = some d := by
  induction l with
  | nil => cases h
  | cons hd tl ih =>
    obtain ⟨a, b⟩ := hd
    by_cases hp : a = p
    · exact ⟨b, by simp [lookupFile, hp]⟩
    · rw [List.mem_cons] at h
      rcases h with h | h
      · cases h
        exact absurd rfl hp
      · obtain ⟨d, hd⟩ := ih h
        exact ⟨d, by simp [lookupFile, hp, hd]⟩

theorem exists_content_of_mem_glob {fs : FS} {p : String} (h : p ∈ glob_txt fs) :
    ∃ c, readFile fs p = some c := by
  simp only [glob_txt, List.mem_map, List.mem_filter] at h
  obtain ⟨⟨q, c⟩, ⟨hmem, _⟩, hq⟩ := h
  cases hq
  exact lookupFile_exists_of_mem hmem

theorem isTxt_of_mem_glob {fs : FS} {p : String} (h : p ∈ glob_txt fs) :
    isTxtName p = true := by
  simp only [glob_txt, List.mem_map, List.mem_filter] at h
  obtain ⟨⟨q, c⟩, ⟨_, ht⟩, hq⟩ := h
  cases hq
  exact ht

theorem run_analysis_core_map (fs : FS) (now : String) :
    ∀ files : List String, (∀ f ∈ files, ∃ c, readFile fs f = some c) →
      (run_analysis_core fs now files).1.map (fun r => r.file) = files := by
  intro files
  induction files with
  | nil => intro _; rfl
  | cons f rest ih =>
    intro h
    obtain ⟨c, hc⟩ := h f (List.mem_cons_self f rest)
    have ha : analyze_file fs now f =
        .ok ({ file := f,
               lines := (pySplitlines c).length,
               characters := c.length,
               words := (pySplitWs c).length,
               timestamp := now },
             [⟨.debug, "Analysis complete for " ++ f⟩]) := by
      simp [analyze_file, hc]
    simp only [run_analysis_core, ha, List.map_cons]
    rw [ih (fun g hg => h g (List.mem_cons_of_mem f hg))]

theorem run_analysis_core_no_error (fs : FS) (now : String) :
    ∀ files : List String, (∀ f ∈ files, ∃ c, readFile fs f = some c) →
      (run_analysis_core fs now files).2.filter isErrorEntry = [] := by
  intro files
  induction files with
  | nil => intro _; rfl
  | cons f rest ih =>
    intro h
    obtain ⟨c, hc⟩ := h f (List.mem_cons_self f rest)
    have ha : analyze_file fs now f =
        .ok ({ file := f,
               lines := (pySplitlines c).length,
               characters := c.length,
               words := (pySplitWs c).length,
               timestamp := now },
             [⟨.debug, "Analysis complete for " ++ f⟩]) := by
      simp [analyze_file, hc]
    simp only [run_analysis_core, ha]
    rw [List.filter_append]
    rw [ih (fun g hg => h g (List.mem_cons_of_mem f hg))]
    simp [isErrorEntry]

/-! ## Claim theorems -/

/-- C2: the claim says that for every nonexistent configuration path,
`load_config` as invoked at application startup returns an empty mapping,
logs one error-level message and does not raise. In the code,
`WindowPracticeApp.__init__` assigns `self.config = self.load_config(...)`
BEFORE `self.logger = self.setup_logging()`, so the `except FileNotFoundError`
handler's `self.logger.error(...)` dereferences a missing attribute and
raises `AttributeError` out of the constructor: startup with a nonexistent
config path raises instead of recovering. This theorem evaluates the code at
the failing configuration. -/
theorem initApp_missing_config_raises (fs : FS) (path : String)
    (h : readFile fs path = none) :
    initApp fs path = .error (.attributeError "logger") := by
  simp [initApp, load_config, h]

/-- Witness for C2 at the concrete startup state: no file at all, default
config path `config.json`. -/
theorem initApp_missing_config_raises_witness :
    readFile ⟨[]⟩ "config.json" = none ∧
    initApp ⟨[]⟩ "config.json" = .error (.attributeError "logger") :=
  ⟨rfl, initApp_missing_config_raises ⟨[]⟩ "config.json" rfl⟩

/-- C4: for every text input file, running `process_data` and then reading
the output file yields exactly the uppercase mapping of the input contents,
with no truncation. -/
theorem process_data_uppercase (fs : FS) (p data : String)
    (h : readFile fs p = some data) :
    ∃ fs2 out lg, process_data fs p = .ok (fs2, out, lg) ∧
      readFile fs2 out = some (pyUpper data) := by
  refine ⟨writeFile fs (pyReplaceTxt p) (pyUpper data), pyReplaceTxt p,
    [⟨.info, "Processing " ++ p⟩,
     ⟨.info, "Processed data written to " ++ pyReplaceTxt p⟩], ?_, ?_⟩
  · simp [process_data, h]
  · exact readFile_writeFile_self fs (pyReplaceTxt p) (pyUpper data)

/-- Witness for C4 on the file `a.txt` with contents `hi by`. -/
theorem process_data_uppercase_witness :
    readFile ⟨[("a.txt", "hi by")]⟩ "a.txt" = some "hi by" ∧
    ∃ fs2 out lg, process_data ⟨[("a.txt", "hi by")]⟩ "a.txt" = .ok (fs2, out, lg) ∧
      readFile fs2 out = some (pyUpper "hi by") :=
  ⟨rfl, process_data_uppercase ⟨[("a.txt", "hi by")]⟩ "a.txt" "hi by" rfl⟩

/-- C5 counterexample: the claim says the output path is obtained by
replacing the suffix `.txt` of the input name. The code runs
`input_file.replace('.txt', '_processed.txt')`, which replaces EVERY
occurrence of `.txt`: on the input `a.txt.txt` the code returns
`a_processed.txt_processed.txt`, while suffix replacement would give
`a.txt_processed.txt`. -/
theorem process_data_suffix_cex :
    returnedPath (process_data ⟨[("a.txt.txt", "x")]⟩ "a.txt.txt") =
      some "a_processed.txt_processed.txt" ∧
    suffixReplaceTxtSpec "a.txt.txt" = "a.txt_processed.txt" ∧
    "a_processed.txt_processed.txt" ≠ "a.txt_processed.txt" := by
  refine ⟨rfl, ?_, ?_⟩ <;> decide

/-- C5 amended: for every input file path, `process_data` writes its output
to the path obtained by replacing every occurrence of the substring `.txt`
in the input path with `_processed.txt` (which coincides with suffix
replacement whenever `.txt` occurs only as the suffix), and returns that
path. -/
theorem process_data_output_path (fs : FS) (p data : String)
    (h : readFile fs p = some data) :
    process_data fs p =
      .ok (writeFile fs (pyReplaceTxt p) (pyUpper data), pyReplaceTxt p,
           [⟨.info, "Processing " ++ p⟩,
            ⟨.info, "Processed data written to " ++ pyReplaceTxt p⟩]) := by
  simp [process_data, h]

/-- Witness for C5 (amended) on the file `data/in.txt`. -/
theorem process_data_output_path_witness :
    readFile ⟨[("data/in.txt", "w")]⟩ "data/in.txt" = some "w" ∧
    process_data ⟨[("data/in.txt", "w")]⟩ "data/in.txt" =
      .ok (writeFile ⟨[("data/in.txt", "w")]⟩ (pyReplaceTxt "data/in.txt") (pyUpper "w"),
           pyReplaceTxt "data/in.txt",
           [⟨.info, "Processing " ++ "data/in.txt"⟩,
            ⟨.info, "Processed data written to " ++ pyReplaceTxt "data/in.txt"⟩]) :=
  ⟨rfl, process_data_output_path ⟨[("data/in.txt", "w")]⟩ "data/in.txt" "w" rfl⟩

/-- C6: for a file whose contents are `"a b\nc"` (five characters), the
analyzer returns an `AnalysisRecord` with `lines = 2`, `characters = 5` and
`words = 3`. -/
theorem analyze_file_small_example (now : String) :
    analyze_file ⟨[("data/f.txt", "a b\nc")]⟩ now "data/f.txt" =
      .ok ({ file := "data/f.txt", lines := 2, characters := 5, words := 3,
             timestamp := now },
           [⟨.debug, "Analysis complete for data/f.txt"⟩]) :=
  rfl

/-- C7: in the interactive loop, an input line equal to the quit token in
any letter casing terminates the loop immediately: no line is handed to
`process_command` (the `dispatched` trace is empty) and the rest of the
input is never read. -/
theorem interactive_quit_no_dispatch (fs : FS) (now : String) (l : String)
    (rest : List StdinEvent) (h : pyLower l = "quit") :
    interactive_mode fs now (.line l :: rest) = ⟨fs, [], .quit⟩ := by
  simp [interactive_mode, h]

/-- Witness for C7 with the upper-cased quit token `QUIT`. -/
theorem interactive_quit_no_dispatch_witness :
    pyLower "QUIT" = "quit" ∧
    interactive_mode ⟨[]⟩ "t" [.line "QUIT", .line "analyze"] = ⟨⟨[]⟩, [], .quit⟩ :=
  ⟨by decide, interactive_quit_no_dispatch ⟨[]⟩ "t" "QUIT" [.line "analyze"] (by decide)⟩

/-- C1: for a data directory holding N files matching `*.txt` (and any
number of non-matching files), the batch run returns exactly N records — one
per enumerated file, in enumeration order — and the results file holds the
serialization of exactly those N records in that order. (In this model the
enumeration is taken from the same filesystem state that is read, so all
N enumerated files are readable, matching the claim's premise.) -/
theorem run_analysis_record_count (fs : FS) (now : String) (N : Nat)
    (hN : (glob_txt fs).length = N) :
    (run_analysis fs now).records.length = N ∧
    (run_analysis fs now).records.map (fun r => r.file) = glob_txt fs ∧
    readFile (run_analysis fs now).fs resultsPath =
      some (recordsJson (run_analysis fs now).records) := by
  have hmap : (run_analysis_core fs now (glob_txt fs)).1.map (fun r => r.file) =
      glob_txt fs :=
    run_analysis_core_map fs now (glob_txt fs)
      (fun f hf => exists_content_of_mem_glob hf)
  have hrec : (run_analysis fs now).records =
      (run_analysis_core fs now (glob_txt fs)).1 := rfl
  refine ⟨?_, ?_, ?_⟩
  · have hlen := congrArg List.length hmap
    rw [List.length_map] at hlen
    rw [hrec, hlen, hN]
  · rw [hrec]
    exact hmap
  · rw [hrec]
    exact readFile_writeFile_self fs resultsPath
      (recordsJson (run_analysis_core fs now (glob_txt fs)).1)

/-- Witness for C1: two matching files and one non-matching file. -/
theorem run_analysis_record_count_witness :
    (glob_txt ⟨[("data/a.txt", "x"), ("data/b.txt", "y z"), ("notes.md", "q")]⟩).length = 2 ∧
    ((run_analysis ⟨[("data/a.txt", "x"), ("data/b.txt", "y z"), ("notes.md", "q")]⟩ "t").records.length = 2 ∧
     (run_analysis ⟨[("data/a.txt", "x"), ("data/b.txt", "y z"), ("notes.md", "q")]⟩ "t").records.map (fun r => r.file) =
       glob_txt ⟨[("data/a.txt", "x"), ("data/b.txt", "y z"), ("notes.md", "q")]⟩ ∧
     readFile (run_analysis ⟨[("data/a.txt", "x"), ("data/b.txt", "y z"), ("notes.md", "q")]⟩ "t").fs resultsPath =
       some (recordsJson (run_analysis ⟨[("data/a.txt", "x"), ("data/b.txt", "y z"), ("notes.md", "q")]⟩ "t").records)) :=
  ⟨by decide,
   run_analysis_record_count ⟨[("data/a.txt", "x"), ("data/b.txt", "y z"), ("notes.md", "q")]⟩ "t" 2 (by decide)⟩

/-- C9: the transformation applied by `process_data` is idempotent —
uppercasing an already-uppercased string is the identity — so running
`process_data` on a previously produced output file writes content identical
to that file's content (it writes `pyUpper s` again, to the derived output
path). -/
theorem process_data_idempotent_transform (s : String) :
    pyUpper (pyUpper s) = pyUpper s ∧
    ∀ fs q, readFile fs q = some (pyUpper s) →
      process_data fs q =
        .ok (writeFile fs (pyReplaceTxt q) (pyUpper s), pyReplaceTxt q,
             [⟨.info, "Processing " ++ q⟩,
              ⟨.info, "Processed data written to " ++ pyReplaceTxt q⟩]) := by
  have hid : pyUpper (pyUpper s) = pyUpper s := by
    unfold pyUpper
    rw [show (String.mk (s.data.map Char.toUpper)).data = s.data.map Char.toUpper from rfl]
    rw [List.map_map]
    simp [Function.comp_def, toUpper_idem]
  refine ⟨hid, ?_⟩
  intro fs q h
  rw [show process_data fs q =
      .ok (writeFile fs (pyReplaceTxt q) (pyUpper (pyUpper s)), pyReplaceTxt q,
           [⟨.info, "Processing " ++ q⟩,
            ⟨.info, "Processed data written to " ++ pyReplaceTxt q⟩])
    from by simp [process_data, h]]
  rw [hid]

/-- Witness for C9 on the already-transformed file `o.txt` containing
`pyUpper "aB c" = "AB C"`. -/
theorem process_data_idempotent_transform_witness :
    pyUpper (pyUpper "aB c") = pyUpper "aB c" ∧
    process_data ⟨[("o.txt", "AB C")]⟩ "o.txt" =
      .ok (writeFile ⟨[("o.txt", "AB C")]⟩ (pyReplaceTxt "o.txt") (pyUpper "aB c"),
           pyReplaceTxt "o.txt",
           [⟨.info, "Processing " ++ "o.txt"⟩,
            ⟨.info, "Processed data written to " ++ pyReplaceTxt "o.txt"⟩]) :=
  ⟨(process_data_idempotent_transform "aB c").1,
   (process_data_idempotent_transform "aB c").2 ⟨[("o.txt", "AB C")]⟩ "o.txt" (by decide)⟩

/-- C3: if, among the files enumerated for a batch run, exactly one (`f`,
possibly deleted mid-scan) is unreadable at read time, the per-file loop of
`run_analysis` still completes: the returned records are exactly those of
the other files, in order, with no placeholder for `f`, and the loop log
holds exactly one error-level entry, which names `f`. -/
theorem run_analysis_core_one_unreadable (fs : FS) (now : String)
    (pre post : List String) (f : String)
    (hf : readFile fs f = none)
    (hpre : ∀ g ∈ pre, ∃ c, readFile fs g = some c)
    (hpost : ∀ g ∈ post, ∃ c, readFile fs g = some c) :
    (run_analysis_core fs now (pre ++ f :: post)).1.map (fun r => r.file) =
      pre ++ post ∧
    (run_analysis_core fs now (pre ++ f :: post)).2.filter isErrorEntry =
      [errorEntry f (.fileNotFound f)] := by
  induction pre with
  | nil =>
    have ha : analyze_file fs now f = .error (.fileNotFound f) := by
      simp [analyze_file, hf]
    simp only [List.nil_append, run_analysis_core, ha]
    refine ⟨run_analysis_core_map fs now post hpost, ?_⟩
    rw [List.filter_cons_of_pos (by rfl)]
    rw [run_analysis_core_no_error fs now post hpost]
  | cons g pre ih =>
    obtain ⟨c, hc⟩ := hpre g (List.mem_cons_self g pre)
    have ha : analyze_file fs now g =
        .ok ({ file := g,
               lines := (pySplitlines c).length,
               characters := c.length,
               words := (pySplitWs c).length,
               timestamp := now },
             [⟨.debug, "Analysis complete for " ++ g⟩]) := by
      simp [analyze_file, hc]
    have ihh := ih (fun x hx => hpre x (List.mem_cons_of_mem g hx))
    simp only [List.cons_append, run_analysis_core, ha, List.map_cons,
      List.append_eq, List.nil_append]
    refine ⟨?_, ?_⟩
    · rw [ihh.1]
    · rw [List.filter_cons_of_neg (by simp [isErrorEntry])]
      exact ihh.2

/-- Witness for C3: files `data/a.txt` and `data/c.txt` are readable, the
enumerated `data/b.txt` is gone from the filesystem. -/
theorem run_analysis_core_one_unreadable_witness :
    readFile ⟨[("data/a.txt", "x"), ("data/c.txt", "z w")]⟩ "data/b.txt" = none ∧
    ((run_analysis_core ⟨[("data/a.txt", "x"), ("data/c.txt", "z w")]⟩ "t"
        (["data/a.txt"] ++ "data/b.txt" :: ["data/c.txt"])).1.map (fun r => r.file) =
      ["data/a.txt"] ++ ["data/c.txt"] ∧
     (run_analysis_core ⟨[("data/a.txt", "x"), ("data/c.txt", "z w")]⟩ "t"
        (["data/a.txt"] ++ "data/b.txt" :: ["data/c.txt"])).2.filter isErrorEntry =
      [errorEntry "data/b.txt" (.fileNotFound "data/b.txt")]) :=
  ⟨rfl,
   run_analysis_core_one_unreadable ⟨[("data/a.txt", "x"), ("data/c.txt", "z w")]⟩ "t"
     ["data/a.txt"] ["data/c.txt"] "data/b.txt" rfl
     (by
       intro g hg
       rw [List.mem_singleton] at hg
       subst hg
       exact ⟨"x", rfl⟩)
     (by
       intro g hg
       rw [List.mem_singleton] at hg
       subst hg
       exact ⟨"z w", rfl⟩)⟩

/-- C8 counterexample: the claim says a malformed `process` line inside the
interactive loop terminates only the current operation (the loop survives).
In the code, the loop's `try` catches only `KeyboardInterrupt`, so the
`ValueError` raised by `_, filename = command.split()` escapes the loop: at
the concrete input consisting of the line `process` followed by the line
`analyze`, the loop ends in a crashed state and the second line is never
dispatched. -/
theorem interactive_malformed_cex :
    (interactive_mode ⟨[]⟩ "t" [.line "process", .line "analyze"]).exit =
      .crashed (.valueError "cannot unpack command.split() into (_, filename)") ∧
    "analyze" ∉ (interactive_mode ⟨[]⟩ "t" [.line "process", .line "analyze"]).dispatched := by
  refine ⟨rfl, ?_⟩
  decide

/-- C8 amended: a malformed interactive command argument list (a `process`
line whose whitespace split does not have exactly two tokens) raises an
unhandled `ValueError` that terminates the interactive loop itself — and
hence the process — in all cases, not just the current operation: the loop's
exception handler catches only keyboard interrupts. -/
theorem interactive_malformed_process_crashes (fs : FS) (now s : String)
    (rest : List StdinEvent)
    (h1 : pyLower s ≠ "quit")
    (h2 : pyStartsWith s "analyze" = false)
    (h3 : pyStartsWith s "process" = true)
    (h4 : (pySplitWs s).length ≠ 2) :
    interactive_mode fs now (.line s :: rest) =
      ⟨fs, [s], .crashed (.valueError "cannot unpack command.split() into (_, filename)")⟩ := by
  have hpc : process_command fs now s =
      .error (.valueError "cannot unpack command.split() into (_, filename)") := by
    unfold process_command
    simp only [h2, h3, Bool.false_eq_true, if_false, if_true]
    cases hsp : pySplitWs s with
    | nil => rfl
    | cons a tl =>
      cases tl with
      | nil => rfl
      | cons b tl2 =>
        cases tl2 with
        | nil =>
          exfalso
          apply h4
          rw [hsp]
          rfl
        | cons x tl3 => rfl
  simp [interactive_mode, h1, hpc]

/-- Witness for C8 (amended): the line `process` with no argument, followed
by further input that is never reached. -/
theorem interactive_malformed_process_crashes_witness :
    pyLower "process" ≠ "quit" ∧
    (pySplitWs "process").length ≠ 2 ∧
    interactive_mode ⟨[]⟩ "t" [.line "process", .line "quit"] =
      ⟨⟨[]⟩, ["process"], .crashed (.valueError "cannot unpack command.split() into (_, filename)")⟩ :=
  ⟨by decide, by decide,
   interactive_malformed_process_crashes ⟨[]⟩ "t" "process" [.line "quit"]
     (by decide) (by decide) (by decide) (by decide)⟩

/-- The inner filter of a `writeFile` at the results path does not change
which entries match the `*.txt` glob, because the results path itself never
matches it. -/
theorem filter_txt_filter_not_results (l : List (String × String)) :
    ((l.filter (fun pc => !(pc.1 == resultsPath))).filter
        (fun pc => isTxtName pc.1)) =
      l.filter (fun pc => isTxtName pc.1) := by
  induction l with
  | nil => rfl
  | cons hd tl ih =>
    by_cases hr : hd.1 = resultsPath
    · have ht : isTxtName resultsPath = false := by decide
      simp [List.filter_cons, hr, ht, ih]
    · simp [List.filter_cons, hr, ih]

/-- C10: the results file is never itself an input of any batch run: its
fixed path `data/results.json` does not match the `*.txt` glob, the batch
runner enumerates exactly the glob matches, and writing the results file
leaves the set of enumerable inputs unchanged — so repeated batch runs never
analyze their own prior output. -/
theorem results_file_never_analyzed (fs : FS) (now : String) :
    resultsPath ∉ glob_txt fs ∧
    (run_analysis fs now).fs =
      writeFile fs resultsPath (recordsJson (run_analysis fs now).records) ∧
    glob_txt (run_analysis fs now).fs = glob_txt fs := by
  refine ⟨?_, rfl, ?_⟩
  · intro h
    have := isTxt_of_mem_glob h
    exact absurd this (by decide)
  · show glob_txt (writeFile fs resultsPath
      (recordsJson (run_analysis fs now).records)) = glob_txt fs
    unfold glob_txt writeFile
    have ht : isTxtName resultsPath = false := by decide
    simp [List.filter_cons, ht, filter_txt_filter_not_results fs.files]
